import Mathlib

/-!
Verification of the BotFarmManager task discovery and scheduling orchestrator.

The definitions below are shallow embeddings of the TypeScript sources:

- FuelService (src/services/FuelService.ts): refuel thresholds and purchase rule.
- FarmService (src/services/FarmService.ts): harvest cooldown cache and task extraction.
- TractorService (src/services/TractorService.ts): equipment resolution for an operation.
- SeedService (src/services/SeedService.ts): crop selection and seed purchase.
- FarmBot (the bot class bundled with src/services/FuelService.ts): task submission,
  duration cap, cycle body and next-run scheduling.
- BotOrchestrator (multi-account orchestrator): per-account next-cycle computation.
- ApiClient (the api client module): anti-replay token threading.

JavaScript numbers are modelled as Rat where fractional values occur and as Int
where the source only ever holds integral values; timestamps are Int milliseconds
(Nat for the calendar arithmetic of the scheduler). Remote responses are inputs.
-/

/-! ## Fuel service (src/services/FuelService.ts) -/

/-- Constant FUEL_MIN_LEVEL: minimum litres to keep in the fuel silo. -/
def FUEL_MIN_LEVEL : Int := 1000

/-- Constant FUEL_PRICE_THRESHOLD: price considered low enough to fill up. -/
def FUEL_PRICE_THRESHOLD : Int := 1000

/-- Relevant part of the fuel silo response: fuelSilo.siloHolding,
fuelSilo.remainingCapacity and fuelCost. -/
structure FuelSiloStatus where
  siloHolding : Int
  remainingCapacity : Int
  fuelCost : Int
deriving DecidableEq

/-- Result shape of FuelService.shouldBuyFuel (reason string omitted). -/
structure ShouldBuyFuelResult where
  shouldBuy : Bool
  currentLevel : Int
  currentPrice : Int
  maxCanBuy : Int
deriving DecidableEq

/-- FuelService.shouldBuyFuel: buy when the level is below FUEL_MIN_LEVEL, or when
the price is below FUEL_PRICE_THRESHOLD and there is remaining capacity. -/
def shouldBuyFuel (s : FuelSiloStatus) : ShouldBuyFuelResult :=
  if s.siloHolding < FUEL_MIN_LEVEL then
    { shouldBuy := true, currentLevel := s.siloHolding, currentPrice := s.fuelCost,
      maxCanBuy := s.remainingCapacity }
  else if s.fuelCost < FUEL_PRICE_THRESHOLD ∧ 0 < s.remainingCapacity then
    { shouldBuy := true, currentLevel := s.siloHolding, currentPrice := s.fuelCost,
      maxCanBuy := s.remainingCapacity }
  else
    { shouldBuy := false, currentLevel := s.siloHolding, currentPrice := s.fuelCost,
      maxCanBuy := s.remainingCapacity }

/-- FuelService.checkAndBuyFuel, reduced to the purchase request it sends:
some amount when api.buyFuel(amount) is called, none when no request is sent.
When the level is low the target is 2000 L; when the price is good it fills the
remaining capacity; a computed amount of zero or less sends nothing. -/
def checkAndBuyFuel (s : FuelSiloStatus) : Option Int :=
  let check := shouldBuyFuel s
  if check.shouldBuy = false then none
  else
    let amountToBuy : Int :=
      if check.currentLevel < FUEL_MIN_LEVEL then
        min (2000 - check.currentLevel) check.maxCanBuy
      else
        check.maxCanBuy
    if amountToBuy ≤ 0 then none else some amountToBuy

/-! ## Operation kinds

The source uses the string literals seeding, plowing, harvesting, clearing and
fertilizing; they are modelled by an inductive type. -/

inductive OpKind where
  | seeding
  | plowing
  | harvesting
  | clearing
  | fertilizing
deriving DecidableEq

/-! ## Tractor service (src/services/TractorService.ts)

getOptimalTractorsForOperation takes the farmland-action endpoint response
(for seeding and plowing), the pending-operations view of the same farm, and the
farmland-details equipment entry (for harvesting and clearing). Those remote
responses are inputs of the model. -/

/-- One entry of response.tractors from farmland-action-seed or
farmland-action-plow. -/
structure RespTractor where
  id : Nat
  ttype : OpKind
  isPending : Bool
  hasImplement : Bool
  hp : Rat
  haHour : Rat
  implementId : Option Nat
deriving DecidableEq

/-- One entry of response.implements from the same endpoints. -/
structure RespImplement where
  id : Nat
  itype : OpKind
  available : Int
  minHp : Rat
  haHour : Rat
deriving DecidableEq

/-- The farmland-action endpoint response: lists of tractors and implements. -/
structure ActionResponse where
  tractors : List RespTractor
  implements : List RespImplement
deriving DecidableEq

/-- One selected unit: the object pushed on usableTractors. -/
structure SelTractor where
  tractorId : Nat
  implementId : Option Nat
  haHour : Rat
deriving DecidableEq

/-- One pending operation of the same farm, from getPendingOperationsInFarm. -/
structure PendingOp where
  farmlandId : Nat
  opTimeRemain : Rat
deriving DecidableEq

/-- Return shape of getOptimalTractorsForOperation. -/
structure MultiTractorResult where
  tractors : List SelTractor
  totalHaHour : Rat
  estimatedDuration : Int
  opType : OpKind
deriving DecidableEq

/-- Step 2 of getOptimalTractorsForOperation: tractors of the requested type,
not pending, already carrying an implement. -/
def availableTractorsOf (op : OpKind) (resp : ActionResponse) : List RespTractor :=
  resp.tractors.filter fun t =>
    decide (t.ttype = op) && !t.isPending && t.hasImplement

/-- Step 3: implements of the requested type with positive availability. -/
def availableImplementsOf (op : OpKind) (resp : ActionResponse) : List RespImplement :=
  resp.implements.filter fun i =>
    decide (i.itype = op) && decide (0 < i.available)

/-- The auto-attach loop (step 5, second half): for each available implement,
while below the cap, pair it with the first tractor of the full response list
that is not pending, has enough horsepower and is not selected yet. -/
def autoAttach (resp : ActionResponse) (maxTractors : Nat) :
    List RespImplement → List SelTractor → List SelTractor
  | [], usable => usable
  | imp :: rest, usable =>
    if maxTractors ≤ usable.length then usable
    else
      match resp.tractors.find? (fun t =>
          !t.isPending && decide (imp.minHp ≤ t.hp)
            && !(usable.any fun u => u.tractorId = t.id)) with
      | some t => autoAttach resp maxTractors rest (usable ++ [⟨t.id, some imp.id, imp.haHour⟩])
      | none => autoAttach resp maxTractors rest usable

/-- Step 5, first half followed by auto-attach: already-equipped tractors first,
up to the cap, then implements attached to idle tractors. -/
def usableTractorsOf (op : OpKind) (resp : ActionResponse) (maxTractors : Nat) :
    List SelTractor :=
  autoAttach resp maxTractors (availableImplementsOf op resp)
    (((availableTractorsOf op resp).map fun t =>
        ⟨t.id, t.implementId, t.haHour⟩).take maxTractors)

/-- Stable insertion placing an element after every element whose key is at
least as large: the model of the stable array sort with a descending numeric
comparator. -/
def insertByDesc (key : α → Rat) (t : α) : List α → List α
  | [] => [t]
  | x :: xs => if key x < key t then t :: x :: xs else x :: insertByDesc key t xs

/-- Stable sort by a numeric key, largest first. -/
def sortByDesc (key : α → Rat) (l : List α) : List α :=
  l.foldl (fun acc t => insertByDesc key t acc) []

/-- Sum of the haHour fields, as in the reduce over the selected tractors. -/
def sumHaHour (l : List SelTractor) : Rat :=
  l.foldl (fun sum t => sum + t.haHour) 0

/-- The pre-reduction selection of step 7: sorted usable tractors, capped. -/
def preSelection (op : OpKind) (resp : ActionResponse) (maxTractors : Nat) :
    List SelTractor :=
  (sortByDesc (fun t => t.haHour) (usableTractorsOf op resp maxTractors)).take maxTractors

/-- Step 7, idle-reservation loop: when pending operations exist and more than
one unit is selected, scan the pending operations in order; at the first one
whose potential idle time exceeds the limit, drop the last (slowest) selected
unit and stop scanning. Returns the reduced list and whether a drop happened. -/
def applyIdleReservation (area complexityIndex maxIdleTimeMinutes : Rat)
    (pendingOps : List PendingOp) (tractorsToUse : List SelTractor) :
    List SelTractor × Bool :=
  if 0 < pendingOps.length ∧ 1 < tractorsToUse.length then
    let totalHaHour := sumHaHour tractorsToUse
    let operationTimeSeconds := (area * complexityIndex) / totalHaHour * 3600
    match pendingOps.find? (fun p =>
        decide (maxIdleTimeMinutes * 60 < operationTimeSeconds - p.opTimeRemain)) with
    | some _ => (tractorsToUse.dropLast, true)
    | none => (tractorsToUse, false)
  else (tractorsToUse, false)

/-- The seeding/plowing body of getOptimalTractorsForOperation (steps 1 to 8).
The second component records whether step 7 consulted the pending operations of
the farm (the api.getPendingTab call); the early null returns happen before it. -/
def getOptimalTractorsMulti (op : OpKind) (resp : ActionResponse)
    (pendingOps : List PendingOp) (area complexityIndex : Rat)
    (maxTractors : Nat) (maxIdleTimeMinutes : Rat) :
    Option MultiTractorResult × Bool :=
  if resp.tractors.length = 0 then (none, false)
  else
    let usableTractors := usableTractorsOf op resp maxTractors
    if usableTractors.length = 0 then (none, false)
    else
      let tractorsToUse :=
        (applyIdleReservation area complexityIndex maxIdleTimeMinutes pendingOps
          (preSelection op resp maxTractors)).1
      let finalTotalHaHour := sumHaHour tractorsToUse
      (some { tractors := tractorsToUse,
              totalHaHour := finalTotalHaHour,
              estimatedDuration := ⌈area * complexityIndex / finalTotalHaHour * 3600⌉,
              opType := op }, true)

/-! ## Simple equipment path (harvesting and clearing)

getEquipmentForFarmland reads details.equipment[opType] from the
farmland-details response; its relevant entry is the input here. -/

/-- One entry of opEquipment.units. In the remote shape, id or heavyId may be
absent, and haHour may be absent. -/
structure EquipUnit where
  id : Option Nat
  heavyId : Option Nat
  haHour : Option Rat
deriving DecidableEq

/-- The data subobject of equipment[opType]. -/
structure OpEquipData where
  available : Int
  opDuration : Option Int
deriving DecidableEq

/-- The equipment[opType] entry of the farmland-details response. -/
structure OpEquipment where
  data : OpEquipData
  units : List EquipUnit
deriving DecidableEq

/-- Return shape of getEquipmentForFarmland. -/
structure EquipResult where
  tractorId : Nat
  implementId : Option Nat
  opType : OpKind
  haHour : Rat
  estimatedDuration : Int
deriving DecidableEq

/-- The falsy-chain unit.id or unit.heavyId or 0: a present nonzero id wins,
otherwise a present heavyId, otherwise 0. -/
def unitTractorId (u : EquipUnit) : Nat :=
  let va := u.id.getD 0
  if va ≠ 0 then va else u.heavyId.getD 0

/-- The harvesting/clearing branch of getEquipmentForFarmland: require a
present entry with nonzero availability and a nonempty unit list, sort the
units by haHour descending, take the best, and require a nonzero tractor id.
The estimated duration is the remote opDuration (0 when absent). -/
def getEquipmentSimple (op : OpKind) (opEquipment : Option OpEquipment) :
    Option EquipResult :=
  match opEquipment with
  | none => none
  | some oe =>
    if oe.data.available = 0 then none
    else
      match sortByDesc (fun u => u.haHour.getD 0) oe.units with
      | [] => none
      | bestUnit :: _ =>
        let tractorId := unitTractorId bestUnit
        if tractorId = 0 then none
        else
          some { tractorId := tractorId, implementId := none, opType := op,
                 haHour := bestUnit.haHour.getD 0,
                 estimatedDuration := oe.data.opDuration.getD 0 }

/-- getOptimalTractorsForOperation: seeding and plowing run the multi-tractor
body; harvesting and clearing return the single best unit from
getEquipmentForFarmland, before the pending-operations view is ever consulted.
The second component records whether the pending operations were consulted. -/
def getOptimalTractorsForOperation (op : OpKind) (resp : ActionResponse)
    (pendingOps : List PendingOp) (opEquipment : Option OpEquipment)
    (area complexityIndex : Rat) (maxTractors : Nat) (maxIdleTimeMinutes : Rat) :
    Option MultiTractorResult × Bool :=
  match op with
  | .seeding =>
    getOptimalTractorsMulti .seeding resp pendingOps area complexityIndex
      maxTractors maxIdleTimeMinutes
  | .plowing =>
    getOptimalTractorsMulti .plowing resp pendingOps area complexityIndex
      maxTractors maxIdleTimeMinutes
  | _ =>
    match getEquipmentSimple op opEquipment with
    | none => (none, false)
    | some e =>
      (some { tractors := [⟨e.tractorId, e.implementId, e.haHour⟩],
              totalHaHour := e.haHour,
              estimatedDuration := e.estimatedDuration,
              opType := op }, false)

/-! ## Submission guard (FarmBot, bundled with src/services/FuelService.ts) -/

/-- Constant MAX_OPERATION_SECONDS: six hours, the duration cap. -/
def MAX_OPERATION_SECONDS : Int := 6 * 3600

/-- Outcome of a task submission attempt: no units resolved, skipped by the
duration cap without calling the endpoint, or submitted to the remote endpoint
with the listed unit ids (success iff the remote failed counter is 0). -/
inductive SubmitOutcome where
  | noUnits
  | skippedTooLong
  | submitted (unitIds : List Nat) (success : Bool)
deriving DecidableEq

/-- FarmBot.executeMultiTractorTask, from the resolution result on: when no
units resolved, report none; when the estimated duration exceeds the cap and
the account does not disable the cap, skip without calling the endpoint;
otherwise call startBatchAction with every selected unit. -/
def executeMultiTractorTask (optimal : Option MultiTractorResult)
    (disableMaxTaskDuration : Bool) (remoteFailed : Nat) : SubmitOutcome :=
  match optimal with
  | none => .noUnits
  | some o =>
    if o.tractors.length = 0 then .noUnits
    else if MAX_OPERATION_SECONDS < o.estimatedDuration ∧ disableMaxTaskDuration = false then
      .skippedTooLong
    else
      .submitted (o.tractors.map fun t => t.tractorId) (decide (remoteFailed = 0))

/-- FarmBot.executeMultiHarvesterTask, from the resolution result on: same
guards, then startHarvestAction is called with exactly the first resolved unit
(the harvest endpoint accepts one harvester per call). -/
def executeMultiHarvesterTask (optimal : Option MultiTractorResult)
    (disableMaxTaskDuration : Bool) (remoteFailed : Nat) : SubmitOutcome :=
  match optimal with
  | none => .noUnits
  | some o =>
    match o.tractors with
    | [] => .noUnits
    | bestHarvester :: _ =>
      if MAX_OPERATION_SECONDS < o.estimatedDuration ∧ disableMaxTaskDuration = false then
        .skippedTooLong
      else
        .submitted [bestHarvester.tractorId] (decide (remoteFailed = 0))

/-! ## Harvest cooldown cache and harvest task extraction
(src/services/FarmService.ts) -/

/-- Constant MIN_HARVEST_INTERVAL_MS: six hours in milliseconds. -/
def MIN_HARVEST_INTERVAL_MS : Int := 6 * 60 * 60 * 1000

/-- The in-memory harvest cache: userFarmlandId to timestamp of the last
harvest submission, none for fields never recorded in this process run. -/
def HarvestCache : Type := Nat → Option Int

/-- The cache at process start: empty. -/
def emptyHarvestCache : HarvestCache := fun _ => none

/-- FarmService.recordHarvest: store the current timestamp for the field. -/
def recordHarvest (c : HarvestCache) (userFarmlandId : Nat) (now : Int) : HarvestCache :=
  fun id => if id = userFarmlandId then some now else c id

/-- FarmService.canHarvest: a field with no record (or a falsy recorded
timestamp 0) is eligible; otherwise at least MIN_HARVEST_INTERVAL_MS must have
elapsed since the recorded timestamp. -/
def canHarvest (c : HarvestCache) (now : Int) (userFarmlandId : Nat) : Bool :=
  match c userFarmlandId with
  | none => true
  | some lastHarvest =>
    if lastHarvest = 0 then true
    else decide (MIN_HARVEST_INTERVAL_MS ≤ now - lastHarvest)

/-- One farmland entry of the harvest tab response
(farms[farmId].farmlands[cropTypeId].data[farmlandId]). -/
structure HarvestFarmland where
  id : Nat
  farmlandId : Nat
  canHarvestFlag : Int
  area : Rat
  complexityIndex : Option Rat
deriving DecidableEq

/-- One crop-type group of a farm in the harvest tab response. -/
structure HarvestCropGroup where
  canHarvestFlag : Int
  data : List HarvestFarmland
deriving DecidableEq

/-- One farm of the harvest tab response: farmlands grouped by crop type. -/
structure HarvestFarm where
  farmId : Nat
  farmlands : List HarvestCropGroup
deriving DecidableEq

/-- The AvailableTask record produced by the task extraction. -/
structure AvailableTask where
  opType : OpKind
  farmId : Nat
  farmlandId : Nat
  userFarmlandId : Nat
  area : Rat
  complexityIndex : Rat
deriving DecidableEq

/-- The falsy-default fl.complexityIndex or 1. -/
def complexityOrOne (c : Option Rat) : Rat :=
  match c with
  | none => 1
  | some v => if v = 0 then 1 else v

/-- The per-farmland body of extractHarvestTasks: include the field iff its own
canHarvest flag is 1 and the cooldown cache allows it. -/
def harvestTaskOf (cache : HarvestCache) (now : Int) (farmId : Nat)
    (fl : HarvestFarmland) : Option AvailableTask :=
  if fl.canHarvestFlag = 1 ∧ canHarvest cache now fl.id = true then
    some { opType := .harvesting, farmId := farmId, farmlandId := fl.farmlandId,
           userFarmlandId := fl.id, area := fl.area,
           complexityIndex := complexityOrOne fl.complexityIndex }
  else none

/-- The per-crop-group body of extractHarvestTasks: groups whose canHarvest
flag is not 1 are skipped entirely. -/
def extractHarvestGroup (cache : HarvestCache) (now : Int) (farmId : Nat)
    (g : HarvestCropGroup) : List AvailableTask :=
  if g.canHarvestFlag = 1 then g.data.filterMap (harvestTaskOf cache now farmId)
  else []

/-- FarmService.extractHarvestTasks: iterate farms, crop groups and farmlands
in snapshot order, applying the six-hour filter. -/
def extractHarvestTasks (cache : HarvestCache) (now : Int)
    (farms : List HarvestFarm) : List AvailableTask :=
  farms.flatMap fun farm =>
    farm.farmlands.flatMap (extractHarvestGroup cache now farm.farmId)

/-- All userFarmlandIds occurring in a harvest snapshot, in iteration order. -/
def snapshotIds (farms : List HarvestFarm) : List Nat :=
  farms.flatMap fun farm =>
    farm.farmlands.flatMap fun g => g.data.map fun fl => fl.id

/-! ## Harvest pass and process trace

A cycle runs the harvest pass once: extract the tasks, then submit each in
order (checkAndExecuteHarvesting followed by executeMultiHarvesterTask). For
each extracted task the trace supplies the submission time and whether the
remote reported failed = 0; recordHarvest runs exactly on the successes. -/

/-- One cycle of the trace: extraction time, harvest snapshot, and per-task
submission time and success flag, aligned with the extracted task list. -/
structure HarvestCycle where
  extractTime : Int
  snapshot : List HarvestFarm
  subs : List (Int × Bool)
deriving DecidableEq

/-- One iteration of the submission loop: on a success (remote failed = 0),
record the harvest in the cache and append the success; otherwise leave the
state unchanged. -/
def harvestStep (st : HarvestCache × List (Nat × Int))
    (ev : AvailableTask × (Int × Bool)) : HarvestCache × List (Nat × Int) :=
  if ev.2.2 = true then
    (recordHarvest st.1 ev.1.userFarmlandId ev.2.1,
      st.2 ++ [(ev.1.userFarmlandId, ev.2.1)])
  else st

/-- The submission loop of one harvest pass: thread the cache through the
extracted tasks, recording the submission timestamp on each success and
collecting the successes in order. -/
def runHarvestPass (cache : HarvestCache) (cy : HarvestCycle) :
    HarvestCache × List (Nat × Int) :=
  let tasks := extractHarvestTasks cache cy.extractTime cy.snapshot
  (tasks.zip cy.subs).foldl harvestStep (cache, [])

/-- One cycle of the whole-process fold: run the harvest pass on the current
cache and append its successes. -/
def harvestProcessStep (st : HarvestCache × List (Nat × Int)) (cy : HarvestCycle) :
    HarvestCache × List (Nat × Int) :=
  let r := runHarvestPass st.1 cy
  (r.1, st.2 ++ r.2)

/-- A whole process run: fold the harvest passes of successive cycles over the
initially empty cache, collecting every successful harvest submission as a
(field id, timestamp) pair in submission order. -/
def runHarvestProcess (cycles : List HarvestCycle) :
    HarvestCache × List (Nat × Int) :=
  cycles.foldl harvestProcessStep (emptyHarvestCache, [])

/-- Two successful harvest submissions of the same field are at least the
minimum harvest interval apart (the later minus the earlier, in emission
order). -/
def HarvestSeparated (successes : List (Nat × Int)) : Prop :=
  successes.Pairwise fun a b => a.1 = b.1 → MIN_HARVEST_INTERVAL_MS ≤ b.2 - a.2

/-- The cached timestamp of every field dominates all earlier successful
submissions of that field and is positive. -/
def CacheDominates (cache : HarvestCache) (successes : List (Nat × Int)) : Prop :=
  ∀ p ∈ successes, ∃ t, cache p.1 = some t ∧ p.2 ≤ t ∧ 0 < t

/-! ## Next-run scheduling (FarmBot.scheduleNextRun and
BotOrchestrator.runAccountCycle)

Timestamps are epoch milliseconds (Nat); getHours and setHours are modelled on
a linear 24-hour clock. Math.random draws are inputs r with 0 <= r < 1. -/

/-- Milliseconds per hour. -/
def msPerHour : Nat := 3600000

/-- Milliseconds per day. -/
def msPerDay : Nat := 86400000

/-- The getHours value of a timestamp. -/
def hourOfDay (t : Nat) : Nat := t / msPerHour % 24

/-- The night window check of scheduleNextRun: hour in [2, 6). -/
def isNightHour (h : Nat) : Bool := decide (2 ≤ h) && decide (h < 6)

/-- setHours(6, 0, 0, 0): 06:00:00.000 of the same day. -/
def setHoursSix (t : Nat) : Nat := t - t % msPerDay + 6 * msPerHour

/-- The randomized interval Math.floor(r * (max - min) + min). -/
def randomIntervalMs (minMs maxMs : Nat) (r : Rat) : Nat :=
  (⌊r * ((maxMs : Rat) - (minMs : Rat)) + (minMs : Rat)⌋).toNat

/-- FarmBot.scheduleNextRun, reduced to the absolute time at which the next
cycle is scheduled. With night pause on: if the current hour is inside 02:00
to 06:00, resume at 06:00 today; otherwise draw a candidate interval (r1) and,
if the candidate next run falls inside the window, resume at 06:00 of the
candidate day. In every remaining case the normal branch draws a fresh
interval (r2) and schedules now plus that interval. -/
def scheduleNextRun (pauseAtNight : Bool) (minMs maxMs : Nat) (now : Nat)
    (r1 r2 : Rat) : Nat :=
  if pauseAtNight = true ∧ isNightHour (hourOfDay now) = true then
    setHoursSix now
  else if pauseAtNight = true
      ∧ isNightHour (hourOfDay (now + randomIntervalMs minMs maxMs r1)) = true then
    setHoursSix (now + randomIntervalMs minMs maxMs r1)
  else
    now + randomIntervalMs minMs maxMs r2

/-- BotOrchestrator.runAccountCycle, next-cycle computation after a successful
cycle: now plus Math.floor(r * (max - min + 1)) + min. The account night-pause
setting is not consulted anywhere in the orchestrator. -/
def runAccountCycleNext (minMs maxMs : Nat) (now : Nat) (r : Rat) : Nat :=
  now + ((⌊r * ((maxMs : Rat) - (minMs : Rat) + 1)⌋).toNat + minMs)

/-! ## Api client token threading (ApiClient) -/

/-- The mutable client state: the current anti-replay token, initially the
empty string. -/
structure ClientState where
  currentBT : String
deriving DecidableEq

/-- A remote response as far as the token is concerned: its BT field, with the
empty string standing for an absent or falsy token. -/
structure TokenResponse where
  BT : String
deriving DecidableEq

/-- ApiClient.updateBT: replace the stored token only when the response
carries a truthy one. -/
def updateBT (st : ClientState) (resp : TokenResponse) : ClientState :=
  if resp.BT = "" then st else { currentBT := resp.BT }

/-- ApiClient.buildFormData: prepend the BT parameter when a token is stored,
then the defined data fields in order. -/
def buildFormData (st : ClientState) (data : List (String × Option String)) :
    List (String × String) :=
  (if st.currentBT = "" then [] else [((("BT") : String), st.currentBT)])
    ++ data.filterMap fun p => p.2.map fun v => (p.1, v)

/-- The remote calls of ApiClient, with the arguments that matter kept
abstract; each constructor is one method that performs an HTTP request. -/
inductive ApiCall where
  | getCultivatingTab
  | getSeedingTab
  | getHarvestTab
  | getPendingTab
  | getSiloTab
  | getCropValues
  | sellProduct (cropId : Nat)
  | getFarmlandDetails (farmlandId : Nat)
  | getFarmlandActionSeed (farmlandId farmId : Nat)
  | getFarmlandActionPlow (farmlandId farmId : Nat)
  | startBatchAction (opType : OpKind)
  | startHarvestAction (userFarmlandId harvesterId : Nat)
  | plowAction (farmId : Nat)
  | getFarmlandData (gisId : Nat)
  | getMarketSeeds
  | buySeeds (cropId amount : Nat)
  | getFuelSilo
  | buyFuel (amount : Nat)
deriving DecidableEq

/-- The form built manually by startBatchAction and startHarvestAction: the
operation fields first, then the BT parameter appended under the same
truthiness guard buildFormData uses. -/
def manualActionForm (st : ClientState) (fields : List (String × String)) :
    List (String × String) :=
  fields ++ (if st.currentBT = "" then [] else [((("BT") : String), st.currentBT)])

/-- Whether the method body calls updateBT on its response. Every method does,
except getFarmlandDetails, whose body returns response.data without updating
the stored token (plowAction guards the call with the same truthiness check
updateBT itself performs). -/
def callUpdatesBT (c : ApiCall) : Bool :=
  match c with
  | .getFarmlandDetails _ => false
  | _ => true

/-- The client state after a call returns: updateBT for every method except
getFarmlandDetails, which leaves the stored token untouched. -/
def stepBT (st : ClientState) (c : ApiCall) (resp : TokenResponse) : ClientState :=
  match c with
  | .getFarmlandDetails _ => st
  | _ => updateBT st resp

/-! ## Seed selection (src/services/SeedService.ts) -/

/-- One entry of the farmland cropScores record, after Object.entries and the
spread into a name plus data object. -/
structure CropEntry where
  name : String
  id : Nat
  score : Rat
deriving DecidableEq

/-- One entry of the market seed list. -/
structure MarketSeed where
  id : Nat
  name : String
  unlocked : Int
  canAfford : Int
  kgPerHa : Rat
  seedCost : Rat
deriving DecidableEq

/-- Return shape of getBestSeedForFarmland. -/
structure BestSeedResult where
  cropId : Nat
  cropName : String
  score : Rat
  kgPerHa : Rat
  seedCost : Rat
  requiredAmount : Int
  currentStock : Int
  needToBuy : Int
deriving DecidableEq

/-- The unlockedSeeds map: built by iterating the market list and keeping the
entries with unlocked = 1 and canAfford = 1, keyed by id, later writes
overriding earlier ones; this is its lookup. -/
def unlockedSeedsFind (seeds : List MarketSeed) (cropId : Nat) : Option MarketSeed :=
  seeds.foldl
    (fun acc s =>
      if s.unlocked = 1 ∧ s.canAfford = 1 ∧ s.id = cropId then some s else acc)
    none

/-- The result object built for a chosen crop: required amount is
ceil(area * kgPerHa), the deficit is max(0, required - stock). -/
def mkBestSeedResult (area : Rat) (stock : Nat → Int) (crop : CropEntry)
    (ms : MarketSeed) : BestSeedResult :=
  let requiredAmount := ⌈area * ms.kgPerHa⌉
  let currentStock := stock crop.id
  { cropId := crop.id, cropName := crop.name, score := crop.score,
    kgPerHa := ms.kgPerHa, seedCost := ms.seedCost,
    requiredAmount := requiredAmount, currentStock := currentStock,
    needToBuy := max 0 (requiredAmount - currentStock) }

/-- The configured-crop loop (step 4): first sorted crop with the configured
id that is also in the unlocked-seeds map; a configured crop missing from the
map is logged and skipped. -/
def configuredSeedLoop (seeds : List MarketSeed) (area : Rat) (stock : Nat → Int)
    (configuredCropId : Nat) : List CropEntry → Option BestSeedResult
  | [] => none
  | crop :: rest =>
    if crop.id = configuredCropId then
      match unlockedSeedsFind seeds crop.id with
      | some ms => some (mkBestSeedResult area stock crop ms)
      | none => configuredSeedLoop seeds area stock configuredCropId rest
    else configuredSeedLoop seeds area stock configuredCropId rest

/-- The forced-seed loop (step 5, forced branch): first sorted crop with the
forced name that is also in the unlocked-seeds map. -/
def forcedSeedLoop (seeds : List MarketSeed) (area : Rat) (stock : Nat → Int)
    (forceSeedName : String) : List CropEntry → Option BestSeedResult
  | [] => none
  | crop :: rest =>
    if crop.name = forceSeedName then
      match unlockedSeedsFind seeds crop.id with
      | some ms => some (mkBestSeedResult area stock crop ms)
      | none => forcedSeedLoop seeds area stock forceSeedName rest
    else forcedSeedLoop seeds area stock forceSeedName rest

/-- The automatic loop (step 5, else branch): first sorted crop that is in the
unlocked-seeds map. -/
def autoSeedLoop (seeds : List MarketSeed) (area : Rat) (stock : Nat → Int) :
    List CropEntry → Option BestSeedResult
  | [] => none
  | crop :: rest =>
    match unlockedSeedsFind seeds crop.id with
    | some ms => some (mkBestSeedResult area stock crop ms)
    | none => autoSeedLoop seeds area stock rest

/-- SeedService.getBestSeedForFarmland: scores sorted by score descending; the
configured crop short-circuits when available, else the forced name when a
force is set, else the best available score. The stock function stands for
getSeedStock against the seeding tab. -/
def getBestSeedForFarmland (configuredCropId : Option Nat)
    (forceSeedName : Option String) (cropScores : List CropEntry)
    (seeds : List MarketSeed) (area : Rat) (stock : Nat → Int) :
    Option BestSeedResult :=
  let sortedScores := sortByDesc (fun c => c.score) cropScores
  let fromConfigured :=
    match configuredCropId with
    | some cid => configuredSeedLoop seeds area stock cid sortedScores
    | none => none
  match fromConfigured with
  | some r => some r
  | none =>
    match forceSeedName with
    | some fname => forcedSeedLoop seeds area stock fname sortedScores
    | none => autoSeedLoop seeds area stock sortedScores

/-- SeedService.prepareForSeeding: find the best seed; when its deficit is
positive, ensureSeedAvailable recomputes the deficit against the stock and
issues a market buy of that deficit; a failed purchase makes the whole
preparation return none. The first component is the returned seed, the second
the purchase request (cropId, amount) when one was issued. -/
def prepareForSeeding (configuredCropId : Option Nat) (forceSeedName : Option String)
    (cropScores : List CropEntry) (seeds : List MarketSeed) (area : Rat)
    (stock : Nat → Int) (purchaseSucceeds : Bool) :
    Option BestSeedResult × Option (Nat × Int) :=
  match getBestSeedForFarmland configuredCropId forceSeedName cropScores seeds area stock with
  | none => (none, none)
  | some bestSeed =>
    if 0 < bestSeed.needToBuy then
      let needToBuy := max 0 (bestSeed.requiredAmount - stock bestSeed.cropId)
      if needToBuy = 0 then (some bestSeed, none)
      else if purchaseSucceeds = true then (some bestSeed, some (bestSeed.cropId, needToBuy))
      else (none, some (bestSeed.cropId, needToBuy))
    else (some bestSeed, none)

/-! ## Cycle error propagation (FarmBot.executeTask, the pass loops and
FarmBot.runCycle)

The body of executeTask returns the promise of the inner executor from inside
its try block without awaiting it, so a rejected inner promise is not caught
by its catch: the rejection reaches the await in the pass loop
(checkAndExecuteHarvesting, checkAndExecuteSeeding, checkAndExecuteCultivating
have no try around their loops) and is only caught by runCycle. Each task is
modelled by the settled result of its inner executor: ok b for a fulfilled
promise, error for a rejected one. -/

/-- FarmBot.executeTask: the synchronous dispatch cannot throw, and the catch
never sees an asynchronous rejection of the returned promise, so the settled
inner result is propagated unchanged. -/
def executeTask (inner : Except Unit Bool) : Except Unit Bool := inner

/-- A pass loop over its task list: each iteration awaits executeTask; a
rejection aborts the loop and rejects the pass. Returns how many tasks of the
pass were attempted, and the pass outcome. -/
def runPassTasks : List (Except Unit Bool) → Nat × Except Unit Unit
  | [] => (0, Except.ok ())
  | r :: rest =>
    match executeTask r with
    | Except.error e => (1, Except.error e)
    | Except.ok _ =>
      let t := runPassTasks rest
      (t.1 + 1, t.2)

/-- The task passes of one cycle body, in the fixed order harvest, seeding,
cultivating (refuel and sell keep their own internal catches). -/
structure CycleTasks where
  harvest : List (Except Unit Bool)
  seeding : List (Except Unit Bool)
  cultivating : List (Except Unit Bool)

/-- FarmBot.runCycle over the three task passes: a rejected pass propagates to
the try of runCycle, which logs and returns, so the later passes of that cycle
are never started. The result counts the attempted tasks per pass. -/
def runCycleTaskCounts (cd : CycleTasks) : Nat × Nat × Nat :=
  let h := runPassTasks cd.harvest
  match h.2 with
  | Except.error _ => (h.1, 0, 0)
  | Except.ok _ =>
    let s := runPassTasks cd.seeding
    match s.2 with
    | Except.error _ => (h.1, s.1, 0)
    | Except.ok _ =>
      let c := runPassTasks cd.cultivating
      (h.1, s.1, c.1)

/-! ## Helper lemmas about the stable descending sort -/

theorem mem_insertByDesc {α} (key : α → Rat) (t : α) (l : List α) (a : α) :
    a ∈ insertByDesc key t l ↔ a = t ∨ a ∈ l := by
  induction l with
  | nil => simp [insertByDesc]
  | cons x xs ih =>
    simp only [insertByDesc]
    split_ifs <;> simp [ih, List.mem_cons] <;> tauto

theorem pairwise_insertByDesc {α} (key : α → Rat) (t : α) (l : List α)
    (h : l.Pairwise fun a b => key b ≤ key a) :
    (insertByDesc key t l).Pairwise fun a b => key b ≤ key a := by
  induction l with
  | nil => simp [insertByDesc]
  | cons x xs ih =>
    rcases List.pairwise_cons.mp h with ⟨hx, hxs⟩
    simp only [insertByDesc]
    split_ifs with hlt
    · refine List.pairwise_cons.mpr ⟨?_, h⟩
      intro y hy
      rcases List.mem_cons.mp hy with rfl | hy
      · exact le_of_lt hlt
      · exact le_trans (hx y hy) (le_of_lt hlt)
    · refine List.pairwise_cons.mpr ⟨?_, ih hxs⟩
      intro y hy
      rcases (mem_insertByDesc key t xs y).mp hy with rfl | hy
      · exact le_of_not_lt hlt
      · exact hx y hy

theorem foldl_insertByDesc_pairwise {α} (key : α → Rat) (l acc : List α)
    (h : acc.Pairwise fun a b => key b ≤ key a) :
    (l.foldl (fun acc t => insertByDesc key t acc) acc).Pairwise
      fun a b => key b ≤ key a := by
  induction l generalizing acc with
  | nil => exact h
  | cons x xs ih => exact ih _ (pairwise_insertByDesc key x acc h)

theorem pairwise_sortByDesc {α} (key : α → Rat) (l : List α) :
    (sortByDesc key l).Pairwise fun a b => key b ≤ key a :=
  foldl_insertByDesc_pairwise key l [] List.Pairwise.nil

theorem mem_foldl_insertByDesc {α} (key : α → Rat) (l acc : List α) (a : α) :
    a ∈ l.foldl (fun acc t => insertByDesc key t acc) acc ↔ a ∈ acc ∨ a ∈ l := by
  induction l generalizing acc with
  | nil => simp
  | cons x xs ih =>
    simp only [List.foldl_cons, ih, mem_insertByDesc, List.mem_cons]
    tauto

theorem mem_sortByDesc {α} (key : α → Rat) (l : List α) (a : α) :
    a ∈ sortByDesc key l ↔ a ∈ l := by
  unfold sortByDesc
  simp [mem_foldl_insertByDesc]

theorem length_insertByDesc {α} (key : α → Rat) (t : α) (l : List α) :
    (insertByDesc key t l).length = l.length + 1 := by
  induction l with
  | nil => simp [insertByDesc]
  | cons x xs ih =>
    simp only [insertByDesc]
    split_ifs <;> simp [ih]

theorem length_sortByDesc {α} (key : α → Rat) (l : List α) :
    (sortByDesc key l).length = l.length := by
  suffices h : ∀ acc : List α,
      (l.foldl (fun acc t => insertByDesc key t acc) acc).length
        = acc.length + l.length by
    simpa using h []
  induction l with
  | nil => simp
  | cons x xs ih =>
    intro acc
    simp only [List.foldl_cons, ih, length_insertByDesc, List.length_cons]
    omega

/-! ## C10 -/

/-- C10: the per-cycle refuel check issues a fuel purchase request iff the silo
holds fewer than 1000 L (buying min(2000 - level, remaining capacity), provided
that amount is positive) or the price is below 1000 per 1000 L with positive
remaining capacity (buying the full remaining capacity); otherwise, and
whenever the computed amount is not positive, no request is sent. -/
theorem c10_refuel_rule (s : FuelSiloStatus) (a : Int) :
    checkAndBuyFuel s = some a ↔
      ((s.siloHolding < 1000 ∧ a = min (2000 - s.siloHolding) s.remainingCapacity ∧ 0 < a)
        ∨ (1000 ≤ s.siloHolding ∧ s.fuelCost < 1000 ∧ 0 < s.remainingCapacity
            ∧ a = s.remainingCapacity)) := by
  unfold checkAndBuyFuel shouldBuyFuel FUEL_MIN_LEVEL FUEL_PRICE_THRESHOLD
  split_ifs <;> simp_all <;> omega

/-- Witness for C10: a silo at 500 L with 3000 L of free capacity and an
expensive price buys up to the 2000 L target. -/
theorem c10_refuel_rule_witness :
    checkAndBuyFuel ⟨500, 3000, 1200⟩ = some 1500 :=
  (c10_refuel_rule ⟨500, 3000, 1200⟩ 1500).mpr (by decide)

/-! ## C2 -/

/-- C2: for every resolved task (a resolution with a nonempty unit list), the
submission step never calls the remote endpoint when the estimated duration
exceeds six hours and the account does not disable the cap, reporting a
skipped outcome instead; when the override flag is set it always proceeds to
call the endpoint, whatever the estimated duration. -/
theorem c2_duration_cap (o : MultiTractorResult) (hne : o.tractors ≠ [])
    (disableMaxTaskDuration : Bool) (remoteFailed : Nat) :
    (MAX_OPERATION_SECONDS < o.estimatedDuration → disableMaxTaskDuration = false →
      executeMultiTractorTask (some o) disableMaxTaskDuration remoteFailed
        = SubmitOutcome.skippedTooLong)
    ∧ (disableMaxTaskDuration = true →
      executeMultiTractorTask (some o) disableMaxTaskDuration remoteFailed
        = SubmitOutcome.submitted (o.tractors.map fun t => t.tractorId)
            (decide (remoteFailed = 0))) := by
  have hlen : o.tractors.length ≠ 0 := by
    simpa [List.length_eq_zero] using hne
  constructor
  · intro hdur hflag
    simp [executeMultiTractorTask, hlen, hdur, hflag]
  · intro hflag
    simp [executeMultiTractorTask, hlen, hflag]

/-- Witness for C2 at a concrete resolution of one tractor and a 30000 second
estimate. -/
theorem c2_duration_cap_witness :
    (executeMultiTractorTask
        (some ⟨[⟨1, none, 2⟩], 2, 30000, OpKind.plowing⟩) false 5
      = SubmitOutcome.skippedTooLong)
    ∧ (executeMultiTractorTask
        (some ⟨[⟨1, none, 2⟩], 2, 30000, OpKind.plowing⟩) true 0
      = SubmitOutcome.submitted [1] true) :=
  ⟨(c2_duration_cap ⟨[⟨1, none, 2⟩], 2, 30000, OpKind.plowing⟩ (by decide) false 5).1
      (by decide) rfl,
    (c2_duration_cap ⟨[⟨1, none, 2⟩], 2, 30000, OpKind.plowing⟩ (by decide) true 0).2 rfl⟩

/-! ## C3 -/

/-- C3 counterexample: a seeding resolution over a single tractor of 1 ha/h on
a field of area 2 and complexity index 2 returns an estimated duration of
14400 seconds, not the 7200 seconds of the claimed formula
ceil(area / totalThroughput * 3600): the source multiplies the area by the
complexity index. -/
theorem c3_counterexample :
    ((getOptimalTractorsMulti OpKind.seeding
        ⟨[⟨1, OpKind.seeding, false, true, 100, 1, some 2⟩], []⟩ [] 2 2 4 30).1
      = some ⟨[⟨1, some 2, 1⟩], 1, 14400, OpKind.seeding⟩)
    ∧ (14400 : Int) ≠ ⌈(2 : Rat) / (1 : Rat) * 3600⌉ := by
  constructor
  · simp [getOptimalTractorsMulti, usableTractorsOf, availableTractorsOf,
      availableImplementsOf, autoAttach, preSelection, sortByDesc, insertByDesc,
      applyIdleReservation, sumHaHour]
    norm_num
  · norm_num

/-- C3 amended: every multi-tractor resolution (seeding or plowing) that
returns a result reports estimatedDuration equal to
ceil(area * complexityIndex / totalThroughput * 3600) seconds, where
totalThroughput is the sum of the selected haHour values: the area IS
multiplied by the complexity index of the field. -/
theorem c3_amended_duration_formula (op : OpKind) (resp : ActionResponse)
    (pendingOps : List PendingOp) (area complexityIndex : Rat)
    (maxTractors : Nat) (maxIdleTimeMinutes : Rat) (r : MultiTractorResult)
    (h : (getOptimalTractorsMulti op resp pendingOps area complexityIndex
        maxTractors maxIdleTimeMinutes).1 = some r) :
    r.estimatedDuration = ⌈area * complexityIndex / r.totalHaHour * 3600⌉
    ∧ r.totalHaHour = sumHaHour r.tractors := by
  simp only [getOptimalTractorsMulti] at h
  split_ifs at h <;> simp_all
  subst h
  exact ⟨rfl, rfl⟩

/-- Witness for the amended C3 at the concrete input of the counterexample. -/
theorem c3_amended_witness :
    (14400 : Int) = ⌈(2 : Rat) * 2 / (1 : Rat) * 3600⌉
    ∧ (1 : Rat) = sumHaHour [⟨1, some 2, 1⟩] := by
  have hres : (getOptimalTractorsMulti OpKind.seeding
      ⟨[⟨1, OpKind.seeding, false, true, 100, 1, some 2⟩], []⟩ [] 2 2 4 30).1
      = some ⟨[⟨1, some 2, 1⟩], 1, 14400, OpKind.seeding⟩ := by
    simp [getOptimalTractorsMulti, usableTractorsOf, availableTractorsOf,
      availableImplementsOf, autoAttach, preSelection, sortByDesc, insertByDesc,
      applyIdleReservation, sumHaHour]
    norm_num
  exact c3_amended_duration_formula OpKind.seeding
    ⟨[⟨1, OpKind.seeding, false, true, 100, 1, some 2⟩], []⟩ [] 2 2 4 30
    ⟨[⟨1, some 2, 1⟩], 1, 14400, OpKind.seeding⟩ hres

/-! ## C4 -/

/-- C4: with night pause enabled the scheduler can still compute a next-run
inside the 02:00 to 06:00 blackout window. Starting at midnight with interval
bounds of 1 h and 6 h, the candidate draw 0 gives a 01:00 candidate that
passes the night check, but the normal branch then draws a fresh interval
(here one half) and schedules the run at 03:30, inside the window. The
multi-account orchestrator never consults night pause and schedules 03:30 at
the same inputs. -/
theorem c4_night_pause_bug :
    scheduleNextRun true 3600000 21600000 0 0 (1 / 2) = 12600000
    ∧ isNightHour (hourOfDay (scheduleNextRun true 3600000 21600000 0 0 (1 / 2))) = true
    ∧ runAccountCycleNext 3600000 21600000 0 (1 / 2) = 12600000
    ∧ isNightHour (hourOfDay (runAccountCycleNext 3600000 21600000 0 (1 / 2))) = true := by
  have h1 : scheduleNextRun true 3600000 21600000 0 0 (1 / 2) = 12600000 := by
    have hr1 : randomIntervalMs 3600000 21600000 0 = 3600000 := by
      unfold randomIntervalMs
      norm_num
      rfl
    have hr2 : randomIntervalMs 3600000 21600000 (1 / 2) = 12600000 := by
      unfold randomIntervalMs
      norm_num
      rfl
    unfold scheduleNextRun
    rw [hr1, hr2]
    simp [hourOfDay, isNightHour, msPerHour]
  have h2 : runAccountCycleNext 3600000 21600000 0 (1 / 2) = 12600000 := by
    unfold runAccountCycleNext
    norm_num
    rfl
  refine ⟨h1, ?_, h2, ?_⟩
  · rw [h1]
    decide
  · rw [h2]
    decide

/-! ## C5 -/

/-- C5 counterexample: getFarmlandDetails does not store the token of its
response; with stored token a and response token b, the client keeps a. -/
theorem c5_counterexample :
    stepBT { currentBT := "a" } (ApiCall.getFarmlandDetails 5) { BT := "b" }
      ≠ ({ currentBT := "b" } : ClientState) := by
  decide

/-- C5 amended: every call includes the stored anti-replay token in its
request when one has been received (buildFormData prepends it, the two manual
form builders append it under the same truthiness guard), and every call
except getFarmlandDetails replaces the stored token by the one carried in its
response; getFarmlandDetails leaves the stored token unchanged. -/
theorem c5_token_threading (st : ClientState) (c : ApiCall) (resp : TokenResponse)
    (data : List (String × Option String)) (fields : List (String × String)) :
    (st.currentBT ≠ "" →
      ((("BT") : String), st.currentBT) ∈ buildFormData st data
      ∧ ((("BT") : String), st.currentBT) ∈ manualActionForm st fields)
    ∧ (callUpdatesBT c = true → resp.BT ≠ "" →
        (stepBT st c resp).currentBT = resp.BT)
    ∧ (callUpdatesBT c = false → stepBT st c resp = st)
    ∧ (callUpdatesBT c = false ↔ ∃ fid, c = ApiCall.getFarmlandDetails fid) := by
  refine ⟨?_, ?_, ?_, ?_⟩
  · intro hne
    constructor
    · simp [buildFormData, hne]
    · simp [manualActionForm, hne]
  · intro hupd hbt
    cases c <;> simp_all [stepBT, updateBT, callUpdatesBT]
  · intro hupd
    cases c <;> simp_all [stepBT, callUpdatesBT]
  · cases c <;> simp [callUpdatesBT]

/-- Witness for the amended C5 at a concrete state, call and response. -/
theorem c5_token_threading_witness :
    (((("BT") : String), (("tok") : String))
        ∈ buildFormData { currentBT := "tok" } [((("id") : String), some (("7") : String))])
    ∧ (stepBT { currentBT := "tok" } ApiCall.getSeedingTab { BT := "next" }).currentBT
        = (("next") : String) :=
  ⟨((c5_token_threading { currentBT := "tok" } ApiCall.getSeedingTab { BT := "next" }
      [((("id") : String), some (("7") : String))] []).1 (by decide)).1,
    (c5_token_threading { currentBT := "tok" } ApiCall.getSeedingTab { BT := "next" }
      [((("id") : String), some (("7") : String))] []).2.1 rfl (by decide)⟩

/-! ## C9 -/

/-- C9: a rejected inner promise aborts the rest of the cycle. With an empty
harvest pass, a seeding pass of two tasks whose first submission rejects, and
a cultivating pass of one task, only the first seeding task is attempted: its
failure is not isolated, the second seeding task and the whole cultivating
pass never run, against the claim that every remaining task and pass
continues. -/
theorem c9_task_failure_aborts_cycle :
    runCycleTaskCounts
        ⟨[], [Except.error (), Except.ok true], [Except.ok true]⟩
      = (0, 1, 0) := by
  rfl

/-! ## C6 -/

theorem autoAttach_nil_tractors (resp : ActionResponse) (maxTractors : Nat)
    (h : resp.tractors = []) (imps : List RespImplement) :
    autoAttach resp maxTractors imps [] = [] := by
  induction imps with
  | nil => rfl
  | cons imp rest ih =>
    unfold autoAttach
    rw [h]
    simp only [List.find?_nil]
    split_ifs
    · rfl
    · exact ih

theorem usableTractorsOf_nil_tractors (op : OpKind) (resp : ActionResponse)
    (maxTractors : Nat) (h : resp.tractors = []) :
    usableTractorsOf op resp maxTractors = [] := by
  unfold usableTractorsOf availableTractorsOf
  rw [h]
  simpa using autoAttach_nil_tractors resp maxTractors h (availableImplementsOf op resp)

theorem preSelection_pairwise (op : OpKind) (resp : ActionResponse) (maxTractors : Nat) :
    (preSelection op resp maxTractors).Pairwise fun a b => b.haHour ≤ a.haHour :=
  (pairwise_sortByDesc (fun t => t.haHour) (usableTractorsOf op resp maxTractors)).sublist
    (List.take_sublist _ _)

/-- C6: whenever the idle-reservation heuristic of a multi-tractor resolution
triggers a reduction, exactly the last (slowest) selected unit is dropped,
later pending fields are never consulted, the post-reduction count is one less
than the pre-reduction count and still at least one, and the resolution result
carries exactly the reduced unit list. -/
theorem c6_idle_reservation_bound (op : OpKind) (resp : ActionResponse)
    (pend : List PendingOp) (area complexityIndex : Rat) (maxTractors : Nat)
    (maxIdleTimeMinutes : Rat)
    (htrig : (applyIdleReservation area complexityIndex maxIdleTimeMinutes pend
        (preSelection op resp maxTractors)).2 = true) :
    (applyIdleReservation area complexityIndex maxIdleTimeMinutes pend
        (preSelection op resp maxTractors)).1
      = (preSelection op resp maxTractors).dropLast
    ∧ (applyIdleReservation area complexityIndex maxIdleTimeMinutes pend
        (preSelection op resp maxTractors)).1.length + 1
      = (preSelection op resp maxTractors).length
    ∧ 1 ≤ (applyIdleReservation area complexityIndex maxIdleTimeMinutes pend
        (preSelection op resp maxTractors)).1.length
    ∧ (∀ u ∈ (applyIdleReservation area complexityIndex maxIdleTimeMinutes pend
        (preSelection op resp maxTractors)).1,
        ∀ d ∈ (preSelection op resp maxTractors).getLast?, d.haHour ≤ u.haHour)
    ∧ (∀ extra, applyIdleReservation area complexityIndex maxIdleTimeMinutes
        (pend ++ extra) (preSelection op resp maxTractors)
        = applyIdleReservation area complexityIndex maxIdleTimeMinutes pend
            (preSelection op resp maxTractors))
    ∧ (∀ r, (getOptimalTractorsMulti op resp pend area complexityIndex maxTractors
        maxIdleTimeMinutes).1 = some r →
        r.tractors = (applyIdleReservation area complexityIndex maxIdleTimeMinutes pend
          (preSelection op resp maxTractors)).1) := by
  by_cases hc : 0 < pend.length ∧ 1 < (preSelection op resp maxTractors).length
  case neg =>
    exfalso
    unfold applyIdleReservation at htrig
    rw [if_neg hc] at htrig
    simp at htrig
  cases hfind : pend.find? (fun p =>
      decide (maxIdleTimeMinutes * 60 <
        (area * complexityIndex) / sumHaHour (preSelection op resp maxTractors) * 3600
          - p.opTimeRemain)) with
  | none =>
    exfalso
    unfold applyIdleReservation at htrig
    rw [if_pos hc] at htrig
    simp only [hfind] at htrig
    simp at htrig
  | some pTrig =>
  have hres : applyIdleReservation area complexityIndex maxIdleTimeMinutes pend
      (preSelection op resp maxTractors)
      = ((preSelection op resp maxTractors).dropLast, true) := by
    unfold applyIdleReservation
    rw [if_pos hc]
    simp only [hfind]
  have hprene : preSelection op resp maxTractors ≠ [] := by
    intro h0
    rw [h0] at hc
    simp at hc
  refine ⟨by rw [hres], ?_, ?_, ?_, ?_, ?_⟩
  · rw [hres]
    simp only [List.length_dropLast]
    omega
  · rw [hres]
    simp only [List.length_dropLast]
    omega
  · rw [hres]
    intro u hu d hd
    have hsorted := preSelection_pairwise op resp maxTractors
    have hdecomp := List.dropLast_append_getLast hprene
    rw [List.getLast?_eq_getLast _ hprene, Option.mem_some_iff] at hd
    subst hd
    have hpw := hsorted
    rw [← hdecomp] at hpw
    have := (List.pairwise_append.mp hpw).2.2 u hu
      ((preSelection op resp maxTractors).getLast hprene) (List.mem_singleton_self _)
    exact this
  · intro extra
    have hc2 : 0 < (pend ++ extra).length ∧
        1 < (preSelection op resp maxTractors).length := by
      constructor
      · simp only [List.length_append]
        omega
      · exact hc.2
    have hfind2 : (pend ++ extra).find? (fun p =>
        decide (maxIdleTimeMinutes * 60 <
          (area * complexityIndex) / sumHaHour (preSelection op resp maxTractors) * 3600
            - p.opTimeRemain)) = some pTrig := by
      rw [List.find?_append, hfind]
      rfl
    unfold applyIdleReservation
    rw [if_pos hc2, if_pos hc]
    simp only [hfind, hfind2]
  · intro r hr
    have hlenpre : 0 < (usableTractorsOf op resp maxTractors).length := by
      by_contra h0
      have husable : usableTractorsOf op resp maxTractors = [] := by
        cases husable : usableTractorsOf op resp maxTractors with
        | nil => rfl
        | cons a l =>
          rw [husable] at h0
          simp at h0
      have : preSelection op resp maxTractors = [] := by
        unfold preSelection
        rw [husable]
        simp [sortByDesc]
      exact hprene this
    have hrespne : ¬ resp.tractors.length = 0 := by
      intro h0
      have hnil : resp.tractors = [] := List.length_eq_zero.mp h0
      rw [usableTractorsOf_nil_tractors op resp maxTractors hnil] at hlenpre
      simp at hlenpre
    simp only [getOptimalTractorsMulti] at hr
    rw [if_neg hrespne] at hr
    rw [if_neg (by omega : ¬ (usableTractorsOf op resp maxTractors).length = 0)] at hr
    simp only [Option.some.injEq] at hr
    subst hr
    rfl

/-- Witness for C6 on a two-tractor seeding resolution over a farm with one
pending field due immediately: the heuristic drops the slowest unit and one
unit remains. -/
theorem c6_idle_reservation_bound_witness :
    (applyIdleReservation 10 1 30 [⟨5, 0⟩]
        (preSelection OpKind.seeding
          ⟨[⟨1, OpKind.seeding, false, true, 100, 2, some 7⟩,
            ⟨2, OpKind.seeding, false, true, 100, 1, some 8⟩], []⟩ 4)).1
      = (preSelection OpKind.seeding
          ⟨[⟨1, OpKind.seeding, false, true, 100, 2, some 7⟩,
            ⟨2, OpKind.seeding, false, true, 100, 1, some 8⟩], []⟩ 4).dropLast
    ∧ 1 ≤ (applyIdleReservation 10 1 30 [⟨5, 0⟩]
        (preSelection OpKind.seeding
          ⟨[⟨1, OpKind.seeding, false, true, 100, 2, some 7⟩,
            ⟨2, OpKind.seeding, false, true, 100, 1, some 8⟩], []⟩ 4)).1.length := by
  have htrig : (applyIdleReservation 10 1 30 [⟨5, 0⟩]
      (preSelection OpKind.seeding
        ⟨[⟨1, OpKind.seeding, false, true, 100, 2, some 7⟩,
          ⟨2, OpKind.seeding, false, true, 100, 1, some 8⟩], []⟩ 4)).2 = true := by
    simp [applyIdleReservation, preSelection, usableTractorsOf, availableTractorsOf,
      availableImplementsOf, autoAttach, sortByDesc, insertByDesc, sumHaHour]
    norm_num
  have h := c6_idle_reservation_bound OpKind.seeding
    ⟨[⟨1, OpKind.seeding, false, true, 100, 2, some 7⟩,
      ⟨2, OpKind.seeding, false, true, 100, 1, some 8⟩], []⟩ [⟨5, 0⟩] 10 1 4 30 htrig
  exact ⟨h.1, h.2.2.1⟩

/-! ## C7 -/

/-- C7 counterexample: a harvesting resolution succeeds with a single unit
while the pending-operations view of the farm is never consulted (second
component false), even though a pending field exists: the idle-reservation
heuristic does not run for harvesting, informationally or otherwise, against
the claim that it still runs and is logged. -/
theorem c7_counterexample :
    getOptimalTractorsForOperation OpKind.harvesting ⟨[], []⟩ [⟨1, 10⟩]
        (some ⟨⟨1, some 100⟩, [⟨some 9, none, some 5⟩]⟩) 2 1 4 30
      = (some ⟨[⟨9, none, 5⟩], 5, 100, OpKind.harvesting⟩, false) := by
  decide

/-- C7 amended: every harvesting resolution that returns a result returns
exactly one unit, the pending-operations view is not consulted at all (the
harvesting branch returns before step 7), and the harvest submission passes
exactly that single harvester id to the dedicated endpoint unless the
duration cap skips it. -/
theorem c7_harvest_single_unit (resp : ActionResponse) (pend : List PendingOp)
    (opEquipment : Option OpEquipment) (area complexityIndex : Rat)
    (maxTractors : Nat) (maxIdleTimeMinutes : Rat) (r : MultiTractorResult)
    (h : (getOptimalTractorsForOperation OpKind.harvesting resp pend opEquipment
        area complexityIndex maxTractors maxIdleTimeMinutes).1 = some r) :
    r.tractors.length = 1
    ∧ (getOptimalTractorsForOperation OpKind.harvesting resp pend opEquipment
        area complexityIndex maxTractors maxIdleTimeMinutes).2 = false
    ∧ (∀ disableMaxTaskDuration remoteFailed,
        executeMultiHarvesterTask (some r) disableMaxTaskDuration remoteFailed
          = SubmitOutcome.skippedTooLong
        ∨ executeMultiHarvesterTask (some r) disableMaxTaskDuration remoteFailed
          = SubmitOutcome.submitted (r.tractors.map fun t => t.tractorId)
              (decide (remoteFailed = 0))) := by
  simp only [getOptimalTractorsForOperation] at h ⊢
  cases heq : getEquipmentSimple OpKind.harvesting opEquipment with
  | none =>
    rw [heq] at h
    simp at h
  | some e =>
    rw [heq] at h
    simp only [Option.some.injEq] at h
    subst h
    refine ⟨rfl, rfl, ?_⟩
    intro dm failed
    simp only [executeMultiHarvesterTask]
    split_ifs with hcap
    · exact Or.inl rfl
    · exact Or.inr rfl

/-- Witness for the amended C7 at the concrete input of the counterexample. -/
theorem c7_harvest_single_unit_witness :
    (([⟨9, none, 5⟩] : List SelTractor).length = 1)
    ∧ (getOptimalTractorsForOperation OpKind.harvesting ⟨[], []⟩ [⟨1, 10⟩]
        (some ⟨⟨1, some 100⟩, [⟨some 9, none, some 5⟩]⟩) 2 1 4 30).2 = false
    ∧ (∀ disableMaxTaskDuration remoteFailed,
        executeMultiHarvesterTask
            (some ⟨[⟨9, none, 5⟩], 5, 100, OpKind.harvesting⟩)
            disableMaxTaskDuration remoteFailed
          = SubmitOutcome.skippedTooLong
        ∨ executeMultiHarvesterTask
            (some ⟨[⟨9, none, 5⟩], 5, 100, OpKind.harvesting⟩)
            disableMaxTaskDuration remoteFailed
          = SubmitOutcome.submitted [9] (decide (remoteFailed = 0))) :=
  c7_harvest_single_unit ⟨[], []⟩ [⟨1, 10⟩]
    (some ⟨⟨1, some 100⟩, [⟨some 9, none, some 5⟩]⟩) 2 1 4 30
    ⟨[⟨9, none, 5⟩], 5, 100, OpKind.harvesting⟩ (by decide)

/-! ## C8 -/

theorem autoSeedLoop_eq_none_iff (seeds : List MarketSeed) (area : Rat)
    (stock : Nat → Int) (l : List CropEntry) :
    autoSeedLoop seeds area stock l = none ↔
      ∀ c ∈ l, unlockedSeedsFind seeds c.id = none := by
  induction l with
  | nil => simp [autoSeedLoop]
  | cons x xs ih =>
    unfold autoSeedLoop
    cases hfind : unlockedSeedsFind seeds x.id with
    | some ms => simp [hfind]
    | none => simp [hfind, ih]

theorem autoSeedLoop_some_spec (seeds : List MarketSeed) (area : Rat)
    (stock : Nat → Int) (l : List CropEntry) (r : BestSeedResult)
    (hs : l.Pairwise fun a b => b.score ≤ a.score)
    (h : autoSeedLoop seeds area stock l = some r) :
    ∃ c ∈ l, ∃ ms, unlockedSeedsFind seeds c.id = some ms
      ∧ r = mkBestSeedResult area stock c ms
      ∧ ∀ c2 ∈ l, (unlockedSeedsFind seeds c2.id).isSome → c2.score ≤ c.score := by
  induction l with
  | nil => simp [autoSeedLoop] at h
  | cons x xs ih =>
    rcases List.pairwise_cons.mp hs with ⟨hx, hxs⟩
    unfold autoSeedLoop at h
    cases hfind : unlockedSeedsFind seeds x.id with
    | some ms =>
      rw [hfind] at h
      simp only [Option.some.injEq] at h
      refine ⟨x, List.mem_cons_self x xs, ms, hfind, h.symm, ?_⟩
      intro c2 hc2 _
      rcases List.mem_cons.mp hc2 with rfl | hc2
      · exact le_refl _
      · exact hx c2 hc2
    | none =>
      rw [hfind] at h
      obtain ⟨c, hc, ms, hms, hr, hmax⟩ := ih hxs h
      refine ⟨c, List.mem_cons_of_mem x hc, ms, hms, hr, ?_⟩
      intro c2 hc2 hsome
      rcases List.mem_cons.mp hc2 with rfl | hc2
      · rw [hfind] at hsome
        simp at hsome
      · exact hmax c2 hc2 hsome

/-- C8: with no per-field override and no forced crop name, the selected crop
is an available (unlocked and affordable) scored entry whose score is maximal
among the available entries, the required amount is ceil(area * kgPerHa), the
deficit is max(0, required - stock); selection returns none exactly when no
scored crop is available, and preparation issues a purchase of the deficit
exactly when the deficit is positive, returning none when that purchase
fails. -/
theorem c8_auto_seed_selection (cropScores : List CropEntry)
    (seeds : List MarketSeed) (area : Rat) (stock : Nat → Int)
    (purchaseSucceeds : Bool) :
    (∀ r, getBestSeedForFarmland none none cropScores seeds area stock = some r →
      ∃ c ∈ cropScores, ∃ ms, unlockedSeedsFind seeds c.id = some ms
        ∧ r = mkBestSeedResult area stock c ms
        ∧ r.requiredAmount = ⌈area * ms.kgPerHa⌉
        ∧ r.needToBuy = max 0 (r.requiredAmount - stock c.id)
        ∧ ∀ c2 ∈ cropScores, (unlockedSeedsFind seeds c2.id).isSome →
            c2.score ≤ c.score)
    ∧ (getBestSeedForFarmland none none cropScores seeds area stock = none ↔
        ∀ c ∈ cropScores, unlockedSeedsFind seeds c.id = none)
    ∧ (∀ r, getBestSeedForFarmland none none cropScores seeds area stock = some r →
        (0 < r.needToBuy →
          prepareForSeeding none none cropScores seeds area stock purchaseSucceeds
            = ((if purchaseSucceeds = true then some r else none),
                some (r.cropId, r.needToBuy)))
        ∧ (r.needToBuy ≤ 0 →
          prepareForSeeding none none cropScores seeds area stock purchaseSucceeds
            = (some r, none))) := by
  have hunfold : getBestSeedForFarmland none none cropScores seeds area stock
      = autoSeedLoop seeds area stock (sortByDesc (fun c => c.score) cropScores) := rfl
  have hsorted := pairwise_sortByDesc (fun c : CropEntry => c.score) cropScores
  refine ⟨?_, ?_, ?_⟩
  · intro r hr
    rw [hunfold] at hr
    obtain ⟨c, hc, ms, hms, hrm, hmax⟩ :=
      autoSeedLoop_some_spec seeds area stock _ r hsorted hr
    refine ⟨c, (mem_sortByDesc _ cropScores c).mp hc, ms, hms, hrm, ?_, ?_, ?_⟩
    · rw [hrm]
      rfl
    · rw [hrm]
      rfl
    · intro c2 hc2 hsome
      exact hmax c2 ((mem_sortByDesc _ cropScores c2).mpr hc2) hsome
  · rw [hunfold, autoSeedLoop_eq_none_iff]
    constructor
    · intro hall c hc
      exact hall c ((mem_sortByDesc _ cropScores c).mpr hc)
    · intro hall c hc
      exact hall c ((mem_sortByDesc _ cropScores c).mp hc)
  · intro r hr
    have hr2 := hr
    rw [hunfold] at hr2
    obtain ⟨c, hc, ms, hms, hrm, hmax⟩ :=
      autoSeedLoop_some_spec seeds area stock _ r hsorted hr2
    have hcrop : r.cropId = c.id := by
      rw [hrm]
      rfl
    have hneed : r.needToBuy = max 0 (r.requiredAmount - stock c.id) := by
      rw [hrm]
      rfl
    have hrecompute : max 0 (r.requiredAmount - stock r.cropId) = r.needToBuy := by
      rw [hneed, hcrop]
    constructor
    · intro hpos
      simp only [prepareForSeeding, hr]
      rw [if_pos hpos, hrecompute]
      rw [if_neg (by omega : ¬ r.needToBuy = 0)]
      cases purchaseSucceeds with
      | true => simp
      | false => simp
    · intro hle
      simp only [prepareForSeeding, hr]
      rw [if_neg (by omega : ¬ 0 < r.needToBuy)]

/-- Witness for C8 on the spec example: crop A scores 90 but is locked, crop B
scores 70 and is available at 50 kg per ha; a 10 ha field with 100 kg in stock
needs 500 kg, so 400 kg are bought and B is selected. -/
theorem c8_auto_seed_selection_witness :
    prepareForSeeding none none
        [⟨"A", 1, 90⟩, ⟨"B", 2, 70⟩]
        [⟨2, "B", 1, 1, 50, 10⟩] 10 (fun _ => 100) true
      = (some ⟨2, "B", 70, 50, 10, 500, 100, 400⟩, some (2, 400)) := by
  have hsome : getBestSeedForFarmland none none
      [⟨"A", 1, 90⟩, ⟨"B", 2, 70⟩]
      [⟨2, "B", 1, 1, 50, 10⟩] 10 (fun _ => 100)
      = some ⟨2, "B", 70, 50, 10, 500, 100, 400⟩ := by
    simp [getBestSeedForFarmland, sortByDesc, insertByDesc, autoSeedLoop,
      unlockedSeedsFind, mkBestSeedResult]
    norm_num
  have h := (c8_auto_seed_selection
      [⟨"A", 1, 90⟩, ⟨"B", 2, 70⟩]
      [⟨2, "B", 1, 1, 50, 10⟩] 10 (fun _ => 100) true).2.2
    ⟨2, "B", 70, 50, 10, 500, 100, 400⟩ hsome
  have h2 := h.1 (by decide)
  simpa using h2

/-! ## C1 -/

theorem harvestTaskOf_some_id (cache : HarvestCache) (now : Int) (fid : Nat)
    (fl : HarvestFarmland) (t : AvailableTask)
    (h : harvestTaskOf cache now fid fl = some t) :
    t.userFarmlandId = fl.id ∧ canHarvest cache now fl.id = true := by
  unfold harvestTaskOf at h
  split_ifs at h with hcond
  simp only [Option.some.injEq] at h
  exact ⟨by rw [← h], hcond.2⟩

theorem extract_eligible (cache : HarvestCache) (now : Int)
    (farms : List HarvestFarm) :
    ∀ t ∈ extractHarvestTasks cache now farms,
      canHarvest cache now t.userFarmlandId = true := by
  intro t ht
  unfold extractHarvestTasks at ht
  rcases List.mem_flatMap.mp ht with ⟨farm, _, hf⟩
  rcases List.mem_flatMap.mp hf with ⟨g, _, hg⟩
  unfold extractHarvestGroup at hg
  split_ifs at hg
  · rcases List.mem_filterMap.mp hg with ⟨fl, _, hfl⟩
    obtain ⟨hid, helig⟩ := harvestTaskOf_some_id cache now farm.farmId fl t hfl
    rw [hid]
    exact helig
  · simp at hg

theorem sublist_flatMap {β : Type} (l : List β) (f g : β → List Nat)
    (h : ∀ b ∈ l, List.Sublist (f b) (g b)) :
    List.Sublist (l.flatMap f) (l.flatMap g) := by
  induction l with
  | nil => simp
  | cons b bs ih =>
    simp only [List.flatMap_cons]
    exact List.Sublist.append (h b (List.mem_cons_self b bs))
      (ih fun x hx => h x (List.mem_cons_of_mem b hx))

theorem filterMap_harvest_ids_sublist (cache : HarvestCache) (now : Int)
    (fid : Nat) (data : List HarvestFarmland) :
    List.Sublist
      ((data.filterMap (harvestTaskOf cache now fid)).map fun t => t.userFarmlandId)
      (data.map fun fl => fl.id) := by
  induction data with
  | nil => simp
  | cons fl fls ih =>
    cases h : harvestTaskOf cache now fid fl with
    | none =>
      rw [List.filterMap_cons_none h]
      simp only [List.map_cons]
      exact ih.cons _
    | some t =>
      rw [List.filterMap_cons_some h]
      simp only [List.map_cons]
      rw [(harvestTaskOf_some_id cache now fid fl t h).1]
      exact ih.cons₂ _

theorem group_ids_sublist (cache : HarvestCache) (now : Int) (fid : Nat)
    (g : HarvestCropGroup) :
    List.Sublist
      ((extractHarvestGroup cache now fid g).map fun t => t.userFarmlandId)
      (g.data.map fun fl => fl.id) := by
  unfold extractHarvestGroup
  split_ifs
  · exact filterMap_harvest_ids_sublist cache now fid g.data
  · simp

theorem extract_ids_sublist (cache : HarvestCache) (now : Int)
    (farms : List HarvestFarm) :
    List.Sublist
      ((extractHarvestTasks cache now farms).map fun t => t.userFarmlandId)
      (snapshotIds farms) := by
  unfold extractHarvestTasks snapshotIds
  rw [List.map_flatMap]
  apply sublist_flatMap
  intro farm _
  rw [List.map_flatMap]
  apply sublist_flatMap
  intro g _
  exact group_ids_sublist cache now farm.farmId g

theorem map_fst_zip_sublist {α β : Type} (f : α → Nat) (l : List α) (l2 : List β) :
    List.Sublist ((l.zip l2).map fun ev => f ev.1) (l.map f) := by
  induction l generalizing l2 with
  | nil => simp
  | cons a as ih =>
    cases l2 with
    | nil => simp
    | cons b bs =>
      simp only [List.zip_cons_cons, List.map_cons]
      exact (ih bs).cons₂ _

theorem foldl_harvestStep_append (events : List (AvailableTask × (Int × Bool)))
    (c : HarvestCache) (l : List (Nat × Int)) :
    events.foldl harvestStep (c, l)
      = ((events.foldl harvestStep (c, [])).1,
          l ++ (events.foldl harvestStep (c, [])).2) := by
  induction events generalizing c l with
  | nil => simp
  | cons ev rest ih =>
    simp only [List.foldl_cons]
    by_cases hok : ev.2.2 = true
    · simp only [harvestStep, hok, if_pos]
      rw [ih (recordHarvest c ev.1.userFarmlandId ev.2.1) (l ++ [(ev.1.userFarmlandId, ev.2.1)]),
        ih (recordHarvest c ev.1.userFarmlandId ev.2.1) ([] ++ [(ev.1.userFarmlandId, ev.2.1)])]
      simp [List.append_assoc]
    · simp only [harvestStep, if_neg hok]
      exact ih c l

theorem harvest_fold_invariant (cache0 : HarvestCache) (e : Int)
    (events : List (AvailableTask × (Int × Bool)))
    (cache : HarvestCache) (acc : List (Nat × Int))
    (hdom : CacheDominates cache acc)
    (hsep : HarvestSeparated acc)
    (helig : ∀ ev ∈ events, canHarvest cache0 e ev.1.userFarmlandId = true)
    (huntouched : ∀ ev ∈ events, cache ev.1.userFarmlandId = cache0 ev.1.userFarmlandId)
    (hnodup : (events.map fun ev => ev.1.userFarmlandId).Nodup)
    (htimes : ∀ ev ∈ events, e ≤ ev.2.1 ∧ 0 < ev.2.1) :
    CacheDominates (events.foldl harvestStep (cache, acc)).1
        (events.foldl harvestStep (cache, acc)).2
    ∧ HarvestSeparated (events.foldl harvestStep (cache, acc)).2 := by
  induction events generalizing cache acc with
  | nil => exact ⟨hdom, hsep⟩
  | cons ev rest ih =>
    have hmemhead : ev ∈ ev :: rest := List.mem_cons_self ev rest
    have hΔpos : (0 : Int) < MIN_HARVEST_INTERVAL_MS := by decide
    simp only [List.foldl_cons]
    by_cases hok : ev.2.2 = true
    · have hA : ∀ q ∈ acc, q.1 = ev.1.userFarmlandId →
          q.2 + MIN_HARVEST_INTERVAL_MS ≤ ev.2.1 := by
        intro q hq hqf
        obtain ⟨t, hct, hqt, htpos⟩ := hdom q hq
        rw [hqf] at hct
        have hc0 : cache0 ev.1.userFarmlandId = some t := by
          rw [← huntouched ev hmemhead]
          exact hct
        have helig1 := helig ev hmemhead
        unfold canHarvest at helig1
        rw [hc0] at helig1
        have helig2 : (if t = 0 then true
            else decide (MIN_HARVEST_INTERVAL_MS ≤ e - t)) = true := helig1
        rw [if_neg (by omega : ¬ t = 0)] at helig2
        have hΔ : MIN_HARVEST_INTERVAL_MS ≤ e - t := of_decide_eq_true helig2
        have hts := (htimes ev hmemhead).1
        omega
      simp only [harvestStep, hok, if_pos]
      apply ih
      · intro q hq
        rcases List.mem_append.mp hq with hq | hq
        · by_cases hqf : q.1 = ev.1.userFarmlandId
          · refine ⟨ev.2.1, ?_, ?_, (htimes ev hmemhead).2⟩
            · simp [recordHarvest, hqf]
            · have := hA q hq hqf
              omega
          · obtain ⟨t, h1, h2, h3⟩ := hdom q hq
            refine ⟨t, ?_, h2, h3⟩
            simpa [recordHarvest, hqf] using h1
        · rw [List.mem_singleton.mp hq]
          exact ⟨ev.2.1, by simp [recordHarvest], le_refl _, (htimes ev hmemhead).2⟩
      · apply List.pairwise_append.mpr
        refine ⟨hsep, List.pairwise_singleton _ _, ?_⟩
        intro a ha b hb hab
        rw [List.mem_singleton.mp hb] at hab ⊢
        have := hA a ha hab
        simp only
        omega
      · intro ev2 hev2
        exact helig ev2 (List.mem_cons_of_mem ev hev2)
      · intro ev2 hev2
        have hne : ev2.1.userFarmlandId ≠ ev.1.userFarmlandId := by
          intro heq
          have hmem : ev.1.userFarmlandId
              ∈ rest.map fun x => x.1.userFarmlandId := by
            rw [← heq]
            exact List.mem_map_of_mem (fun x => x.1.userFarmlandId) hev2
          exact (List.nodup_cons.mp hnodup).1 hmem
        rw [show (recordHarvest cache ev.1.userFarmlandId ev.2.1) ev2.1.userFarmlandId
            = cache ev2.1.userFarmlandId from by simp [recordHarvest, hne]]
        exact huntouched ev2 (List.mem_cons_of_mem ev hev2)
      · exact (List.nodup_cons.mp hnodup).2
      · intro ev2 hev2
        exact htimes ev2 (List.mem_cons_of_mem ev hev2)
    · simp only [harvestStep, if_neg hok]
      apply ih cache acc hdom hsep
      · intro ev2 hev2
        exact helig ev2 (List.mem_cons_of_mem ev hev2)
      · intro ev2 hev2
        exact huntouched ev2 (List.mem_cons_of_mem ev hev2)
      · exact (List.nodup_cons.mp hnodup).2
      · intro ev2 hev2
        exact htimes ev2 (List.mem_cons_of_mem ev hev2)

theorem runHarvestPass_invariant (cache : HarvestCache) (cy : HarvestCycle)
    (successes : List (Nat × Int))
    (hdom : CacheDominates cache successes)
    (hsep : HarvestSeparated successes)
    (hpos : 0 < cy.extractTime)
    (hsubs : ∀ p ∈ cy.subs, cy.extractTime ≤ p.1)
    (hnodup : (snapshotIds cy.snapshot).Nodup) :
    CacheDominates (runHarvestPass cache cy).1
        (successes ++ (runHarvestPass cache cy).2)
    ∧ HarvestSeparated (successes ++ (runHarvestPass cache cy).2) := by
  have hkey := harvest_fold_invariant cache cy.extractTime
    ((extractHarvestTasks cache cy.extractTime cy.snapshot).zip cy.subs)
    cache successes hdom hsep
    (by
      intro ev hev
      obtain ⟨a, b⟩ := ev
      exact extract_eligible cache cy.extractTime cy.snapshot a
        (List.mem_zip hev).1)
    (fun ev _ => rfl)
    (by
      have hsub1 := map_fst_zip_sublist
        (fun t : AvailableTask => t.userFarmlandId)
        (extractHarvestTasks cache cy.extractTime cy.snapshot) cy.subs
      have hsub2 := extract_ids_sublist cache cy.extractTime cy.snapshot
      exact (hnodup.sublist hsub2).sublist hsub1)
    (by
      intro ev hev
      obtain ⟨a, b⟩ := ev
      have hb := (List.mem_zip hev).2
      exact ⟨hsubs b hb, lt_of_lt_of_le hpos (hsubs b hb)⟩)
  rw [foldl_harvestStep_append] at hkey
  exact hkey

/-- C1: within one process run, any two successful harvest submissions of the
same field are at least six hours apart. The hypotheses say only that each
cycle submits after it extracts, that timestamps are positive, and that a
snapshot never lists the same field twice; the six-hour separation comes from
the extraction filter (canHarvest) and the cache write on success
(recordHarvest), exactly the mechanism the claim describes. -/
theorem c1_harvest_cooldown (cycles : List HarvestCycle)
    (hpos : ∀ cy ∈ cycles, 0 < cy.extractTime)
    (hsubs : ∀ cy ∈ cycles, ∀ p ∈ cy.subs, cy.extractTime ≤ p.1)
    (hnodup : ∀ cy ∈ cycles, (snapshotIds cy.snapshot).Nodup) :
    HarvestSeparated (runHarvestProcess cycles).2 := by
  suffices main : ∀ (cs : List HarvestCycle) (st : HarvestCache × List (Nat × Int)),
      (∀ cy ∈ cs, 0 < cy.extractTime) →
      (∀ cy ∈ cs, ∀ p ∈ cy.subs, cy.extractTime ≤ p.1) →
      (∀ cy ∈ cs, (snapshotIds cy.snapshot).Nodup) →
      CacheDominates st.1 st.2 → HarvestSeparated st.2 →
      CacheDominates (cs.foldl harvestProcessStep st).1
          (cs.foldl harvestProcessStep st).2
        ∧ HarvestSeparated (cs.foldl harvestProcessStep st).2 by
    exact (main cycles (emptyHarvestCache, []) hpos hsubs hnodup
      (by intro p hp; simp at hp) List.Pairwise.nil).2
  intro cs
  induction cs with
  | nil =>
    intro st _ _ _ hdom hsep
    exact ⟨hdom, hsep⟩
  | cons cy rest ih =>
    intro st h1 h2 h3 hdom hsep
    simp only [List.foldl_cons]
    have hstep := runHarvestPass_invariant st.1 cy st.2 hdom hsep
      (h1 cy (List.mem_cons_self cy rest))
      (h2 cy (List.mem_cons_self cy rest))
      (h3 cy (List.mem_cons_self cy rest))
    exact ih (harvestProcessStep st cy)
      (fun c hc => h1 c (List.mem_cons_of_mem cy hc))
      (fun c hc => h2 c (List.mem_cons_of_mem cy hc))
      (fun c hc => h3 c (List.mem_cons_of_mem cy hc))
      hstep.1 hstep.2

/-- Witness for C1: two cycles six hours and two milliseconds apart, each
harvesting field 7 successfully; the hypotheses hold and the separation
property follows for the recorded successes. -/
theorem c1_harvest_cooldown_witness :
    HarvestSeparated (runHarvestProcess
      [⟨1, [⟨10, [⟨1, [⟨7, 3, 1, 2, some 1⟩]⟩]⟩], [(2, true)]⟩,
       ⟨21600002, [⟨10, [⟨1, [⟨7, 3, 1, 2, some 1⟩]⟩]⟩],
        [(21600002, true)]⟩]).2 :=
  c1_harvest_cooldown
    [⟨1, [⟨10, [⟨1, [⟨7, 3, 1, 2, some 1⟩]⟩]⟩], [(2, true)]⟩,
     ⟨21600002, [⟨10, [⟨1, [⟨7, 3, 1, 2, some 1⟩]⟩]⟩],
      [(21600002, true)]⟩]
    (by decide) (by decide) (by decide)
